import Mathlib

/-!
Shallow embedding of the ComfyUI-VideoHelperSuite cloud-storage layer
(src/videohelpersuite/s3_utils.py and src/videohelpersuite/cloud_storage_utils.py).

Python strings are modelled as lists of characters (`Str`); `None` for an
optional string argument is modelled by the empty list when the code only
tests Python truthiness (both `None` and the empty string are falsy and are
observationally identical in these code paths).  Environment access,
filesystem probes and network calls are modelled as explicit parameters.
-/

/-- Python strings, as lists of characters. -/
abbrev Str := List Char

/-- Python `a or b` on (possibly empty) strings: `a` when truthy, else `b`. -/
def pyOr (a b : Str) : Str := if a ≠ [] then a else b

/-- Python `s.replace("_SLASH_", "/")`: left-to-right, non-overlapping
replacement of every occurrence of the 7-character sentinel by one slash.
The fuel argument (any bound of at least the length of the string, each
step consuming at least one character) makes the recursion structural. -/
def replaceSlashFuel : Nat → Str → Str
  | 0, _ => []
  | _, [] => []
  | f + 1, c :: cs =>
    if c = '_' ∧ cs.take 6 = ['S', 'L', 'A', 'S', 'H', '_'] then
      '/' :: replaceSlashFuel f (cs.drop 6)
    else
      c :: replaceSlashFuel f cs

/-- Python `s.replace("_SLASH_", "/")`. -/
def replaceSlash (s : Str) : Str := replaceSlashFuel s.length s

/-- `_process_secret_key` (s3_utils.py lines 6-8 and cloud_storage_utils.py
lines 70-72): replace `_SLASH_` with `/` when the value is truthy, else
return the empty string. -/
def process_secret_key (secret_key : Str) : Str :=
  if secret_key ≠ [] then replaceSlash secret_key else []

/-- Python `s.rstrip("/")`: drop every trailing slash. -/
def rstripSlash (s : Str) : Str :=
  (s.reverse.dropWhile (fun c => c = '/')).reverse

/-- `os.path.basename` (posix): the part of the path after the last slash. -/
def basename (p : Str) : Str :=
  (p.reverse.takeWhile (fun c => c ≠ '/')).reverse

/-- Index (from the right) of the last occurrence of `c` in `p`, and `-1`
when absent, mirroring Python `str.rfind`. -/
def rfindIdx (c : Char) (p : Str) : Int :=
  match p.reverse.findIdx? (fun x => x = c) with
  | some i => (p.length : Int) - 1 - (i : Int)
  | none => -1

/-- `os.path.splitext` (posixpath `_splitext` with `sep = '/'`,
`extsep = '.'`): split at the last dot that lies after the last slash,
provided some non-dot character stands between them (so a leading-dot
filename keeps its dots in the root part). -/
def splitext (p : Str) : Str × Str :=
  let sepIndex := rfindIdx '/' p
  let dotIndex := rfindIdx '.' p
  if dotIndex > sepIndex then
    let start := (sepIndex + 1).toNat
    let stop := dotIndex.toNat
    if ((p.drop start).take (stop - start)).any (fun ch => ch ≠ '.') then
      (p.take stop, p.drop stop)
    else
      (p, [])
  else
    (p, [])

/-- Python `str(i)` for an `int`, as a character list. -/
def intStr (i : Int) : Str := (Int.repr i).toList

/-- The filename computed by `S3Handler.upload_file` (s3_utils.py lines
111-117): `target_name` when truthy, else the basename of the path; the
`_<index>` suffix is inserted before the extension only when an index is
given AND no target name was supplied. -/
def S3Handler.uploadFilename (file_path target_name : Str) (index : Option Int) : Str :=
  let filename := if target_name ≠ [] then target_name else basename file_path
  match index with
  | some i =>
    if target_name = [] then
      let pair := splitext filename
      pair.1 ++ '_' :: intStr i ++ pair.2
    else
      filename
  | none => filename

/-- The filename computed by `CloudStorageHandler.upload_file`
(cloud_storage_utils.py lines 472-475): `target_name` when truthy, else the
basename; the `_<index>` suffix is inserted whenever an index is given,
with no exception for a supplied target name. -/
def CloudStorageHandler.uploadFilename (file_path target_name : Str) (index : Option Int) : Str :=
  let filename := if target_name ≠ [] then target_name else basename file_path
  match index with
  | some i =>
    let pair := splitext filename
    pair.1 ++ '_' :: intStr i ++ pair.2
  | none => filename

/-- The object key built by `S3Handler.upload_file` (s3_utils.py lines
119-126): when the prefix is truthy, strip its trailing slashes, append one
slash, strip at most one leading slash, and prepend the result (when still
non-empty) to the filename. -/
def S3Handler.buildKey (pfx filename : Str) : Str :=
  let p :=
    if pfx ≠ [] then
      let q := rstripSlash pfx ++ ['/']
      if q.head? = some '/' then q.drop 1 else q
    else pfx
  if p ≠ [] then p ++ filename else filename

/-- The object key built by `CloudStorageHandler.upload_file`
(cloud_storage_utils.py lines 477-482): when the prefix is truthy, append
one slash unless it already ends with one, and prepend it to the filename. -/
def CloudStorageHandler.buildKey (pfx filename : Str) : Str :=
  if pfx ≠ [] then
    let p := if pfx.getLast? = some '/' then pfx else pfx ++ ['/']
    p ++ filename
  else filename

/-- Whether a string contains the substring `//`. -/
def hasDoubleSlash : Str → Bool
  | [] => false
  | [_] => false
  | a :: b :: t => (a = '/' && b = '/') || hasDoubleSlash (b :: t)

/-- `S3Handler.verify_s3_upload` (s3_utils.py lines 72-91), with the
existence probe abstracted as a function of the attempt number
(`probe a = true` when the `head_object` call at attempt `a` succeeds,
`false` when it raises) and the sleep elided.  The loop body is run with
`r` attempts remaining, the current attempt number being `a`; on the last
attempt a failing probe re-raises its exception (modelled as
`Except.error ()`), matching the `raise e` on line 90; the trailing
`return False` on line 91 is reached only when no attempt runs.  The
first component counts how many probe calls were made. -/
def S3Handler.verifyAux (probe : Nat → Bool) : Nat → Nat → Nat × Except Unit Bool
  | _, 0 => (0, Except.ok false)
  | a, r + 1 =>
    if probe a then (1, Except.ok true)
    else if r = 0 then (1, Except.error ())
    else
      let p := S3Handler.verifyAux probe (a + 1) r
      (p.1 + 1, p.2)

/-- `S3Handler.verify_s3_upload` run from attempt 0 with `max_attempts`
attempts: number of probes made, and the outcome (`Except.error ()` models
the re-raised exception of line 90). -/
def S3Handler.verify_s3_upload (probe : Nat → Bool) (max_attempts : Nat) : Nat × Except Unit Bool :=
  S3Handler.verifyAux probe 0 max_attempts

/-- `CloudStorageHandler.verify_upload` (cloud_storage_utils.py lines
366-405), same shape as the S3 loop except that an exhausted last attempt
returns `False` (line 404) instead of re-raising. -/
def CloudStorageHandler.verifyAux (probe : Nat → Bool) : Nat → Nat → Nat × Bool
  | _, 0 => (0, false)
  | a, r + 1 =>
    if probe a then (1, true)
    else if r = 0 then (1, false)
    else
      let p := CloudStorageHandler.verifyAux probe (a + 1) r
      (p.1 + 1, p.2)

/-- `CloudStorageHandler.verify_upload` run from attempt 0: number of
probes made, and the returned boolean. -/
def CloudStorageHandler.verify_upload (probe : Nat → Bool) (max_attempts : Nat) : Nat × Bool :=
  CloudStorageHandler.verifyAux probe 0 max_attempts

/-- `S3Handler.upload_file` (s3_utils.py lines 93-149), with the local
filesystem probe, the `upload_file` network call and the verification
outcome abstracted as parameters.  `putResult = Except.error e` models the
S3 client raising with message `e` (caught by the outer handler at line
147, which returns `(False, str(e))`); `verifyResult` is the outcome of
`verify_s3_upload`, whose raised exception is likewise caught by the outer
handler.  An optional string argument is the empty list when absent. -/
def S3Handler.upload_file (fileExists : Str → Bool) (putResult : Except Str Unit)
    (verifyResult : Except Str Bool) (bucket_name : Str)
    (file_path pfx : Str) (index : Option Int) (target_name : Str) : Bool × Str :=
  if fileExists file_path = false then
    (false, "File not found: ".toList ++ file_path)
  else
    let filename := S3Handler.uploadFilename file_path target_name index
    let s3_key := S3Handler.buildKey pfx filename
    match putResult with
    | Except.error e => (false, e)
    | Except.ok _ =>
      match verifyResult with
      | Except.error e => (false, e)
      | Except.ok true =>
        (true, "https://".toList ++ bucket_name ++ ".s3.amazonaws.com/".toList ++ s3_key)
      | Except.ok false => (false, "Failed to verify upload of ".toList ++ s3_key)

/-- The AWS branch of `CloudStorageHandler.upload_file`
(cloud_storage_utils.py lines 454-508 and the handler of lines 544-548),
with the same abstractions as `S3Handler.upload_file`; the cloud variant
wraps exception text in an `Error uploading file: ` message and its
verification step returns a plain boolean. -/
def CloudStorageHandler.upload_file_aws (fileExists : Str → Bool)
    (putResult : Except Str Unit) (verifyOk : Bool) (bucket_name : Str)
    (file_path pfx : Str) (index : Option Int) (target_name : Str) : Bool × Str :=
  if fileExists file_path = false then
    (false, "File not found: ".toList ++ file_path)
  else
    let filename := CloudStorageHandler.uploadFilename file_path target_name index
    let key := CloudStorageHandler.buildKey pfx filename
    match putResult with
    | Except.error e => (false, "Error uploading file: ".toList ++ e)
    | Except.ok _ =>
      if verifyOk then
        (true, "https://".toList ++ bucket_name ++ ".s3.amazonaws.com/".toList ++ key)
      else
        (false, "Failed to verify AWS S3 upload".toList)

/-- `S3Handler.upload_files` (s3_utils.py lines 151-166) after the
`isinstance` check, with the per-file upload abstracted as `uf`: a list
comprehension over `enumerate(file_paths)` passing `index = i` when the
list has more than one element and `index = None` otherwise. -/
def S3Handler.upload_files_list (uf : Str → Option Int → Bool × Str)
    (file_paths : List Str) : List (Bool × Str) :=
  file_paths.enum.map
    (fun p => uf p.2 (if file_paths.length > 1 then some (p.1 : Int) else none))

/-- Dynamically typed Python values, enough to express the `isinstance`
check at the top of `S3Handler.upload_files`. -/
inductive PyVal where
  | list (l : List Str)
  | str (s : Str)
  | int (i : Int)
  | noneVal
deriving DecidableEq

/-- Whether a `PyVal` is a Python list. -/
def PyVal.isList : PyVal → Bool
  | PyVal.list _ => true
  | _ => false

/-- The text Python prints for `type(v)`. -/
def PyVal.typeName : PyVal → Str
  | PyVal.list _ => "<class 'list'>".toList
  | PyVal.str _ => "<class 'str'>".toList
  | PyVal.int _ => "<class 'int'>".toList
  | PyVal.noneVal => "<class 'NoneType'>".toList

/-- `S3Handler.upload_files` (s3_utils.py lines 151-166) on a dynamically
typed argument: a non-list raises `ValueError` (modelled as
`Except.error`) before any file is touched; a list is processed by the
comprehension. -/
def S3Handler.upload_files (uf : Str → Option Int → Bool × Str)
    (file_paths : PyVal) : Except Str (List (Bool × Str)) :=
  match file_paths with
  | PyVal.list l => Except.ok (S3Handler.upload_files_list uf l)
  | v => Except.error ("Expected list of file paths, got ".toList ++ v.typeName)

/-- A process environment: `none` models an absent variable, `some v` a
variable present with value `v` (possibly empty). -/
def Env : Type := Str → Option Str

/-- `os.getenv(k)` collapsed to a string: absent and empty are both falsy
and are observationally identical in the credential-resolution code. -/
def getS (e : Env) (k : Str) : Str := (e k).getD []

/-- `os.getenv(k, d)` with a default. -/
def getD (e : Env) (k : Str) (d : Str) : Str := (e k).getD d

/-- `load_dotenv(path)` with its default `override=False`: a variable
already present in the process environment (even with an empty value) is
kept; only absent variables are filled from the file. -/
def mergeEnv (cur file : Env) : Env := fun k =>
  match cur k with
  | some v => some v
  | none => file k

/-- A concrete environment built from an association list. -/
def envOfList (l : List (Str × Str)) : Env :=
  fun k => (l.find? (fun p => p.1 == k)).map (fun p => p.2)

def kACCESS : Str := "AWS_ACCESS_KEY_ID".toList
def kSECRET : Str := "AWS_SECRET_ACCESS_KEY".toList
def kENCODED : Str := "AWS_SECRET_ACCESS_KEY_ENCODED".toList
def kREGION : Str := "AWS_DEFAULT_REGION".toList
def kPROVIDER : Str := "CLOUD_PROVIDER".toList
def kTESTCONTAINER : Str := "CLOUD_STORAGE_TEST_CONTAINER".toList
def kTESTMODE : Str := "STORAGE_TEST_MODE".toList

/-- One override-file stage of the AWS credential resolution (s3_utils.py
lines 33-37 and 44-48, identically cloud_storage_utils.py lines 175-179
and 187-191), reading from the environment as merged after `load_dotenv`:
the encoded secret variant is consulted BEFORE the plain one, then access
key and region are filled if still falsy. -/
def awsFileStage (access_key secret_key region : Str) (e : Env) : Str × Str × Str :=
  let secret_key := pyOr secret_key (process_secret_key (getS e kENCODED))
  let secret_key := if secret_key = [] then getS e kSECRET else secret_key
  let access_key := pyOr access_key (getS e kACCESS)
  let region := pyOr region (getS e kREGION)
  (access_key, secret_key, region)

/-- The AWS credential resolution of `S3Handler.__init__` (s3_utils.py
lines 14-51), identical to `CloudStorageHandler._init_aws_handler`
(cloud_storage_utils.py lines 155-194): process environment first (with
the encoded secret tried only when the plain one is falsy), then the
`.env` file stage when any field is still falsy and the file exists, then
the `.env.local` stage likewise, then the region default.  `fenv` and
`lenv` hold the variables defined in the two files, `fexists`/`lexists`
whether each file exists.  Returns `(access_key, secret_key, region)`.
`awsStage1` is the process-environment stage (s3_utils.py lines 14-23), in
which the encoded secret variant is consulted only when the plain one is
falsy; `resolveAws` chains the stages. -/
def awsStage1 (env0 : Env) : Str × Str × Str :=
  let access_key := getS env0 kACCESS
  let secret_key := getS env0 kSECRET
  let secret_key := if secret_key = [] then process_secret_key (getS env0 kENCODED) else secret_key
  let region := getS env0 kREGION
  (access_key, secret_key, region)

def resolveAws (env0 fenv lenv : Env) (fexists lexists : Bool) : Str × Str × Str :=
  let t0 := awsStage1 env0
  let usEast1 := "us-east-1".toList
  if t0.1 = [] ∨ t0.2.1 = [] ∨ t0.2.2 = [] then
    let env1 := if fexists then mergeEnv env0 fenv else env0
    let t1 := if fexists then awsFileStage t0.1 t0.2.1 t0.2.2 env1 else t0
    if t1.1 = [] ∨ t1.2.1 = [] ∨ t1.2.2 = [] then
      let env2 := if lexists then mergeEnv env1 lenv else env1
      let t2 := if lexists then awsFileStage t1.1 t1.2.1 t1.2.2 env2 else t1
      (t2.1, t2.2.1, pyOr t2.2.2 usEast1)
    else
      (t1.1, t1.2.1, pyOr t1.2.2 usEast1)
  else
    (t0.1, t0.2.1, pyOr t0.2.2 usEast1)

/-- The credential validation and client construction of
`S3Handler.__init__` (s3_utils.py lines 59-70): missing access key or
secret key raises `ValueError` naming every missing variable; otherwise
the resolved triple is handed to the backend client. -/
def S3Handler.init_creds (env0 fenv lenv : Env) (fexists lexists : Bool) :
    Except Str (Str × Str × Str) :=
  let r := resolveAws env0 fenv lenv fexists lexists
  if r.1 = [] ∨ r.2.1 = [] then
    let missing := (if r.1 = [] then [kACCESS] else []) ++ (if r.2.1 = [] then [kSECRET] else [])
    Except.error ("Missing required AWS environment variables: ".toList
      ++ List.intercalate ", ".toList missing)
  else
    Except.ok r

/-- Value of one base64-alphabet character (without padding). -/
def b64Val (c : Char) : Option Nat :=
  if 'A' ≤ c ∧ c ≤ 'Z' then some (c.toNat - 65)
  else if 'a' ≤ c ∧ c ≤ 'z' then some (c.toNat - 97 + 26)
  else if '0' ≤ c ∧ c ≤ '9' then some (c.toNat - 48 + 52)
  else if c = '+' then some 62
  else if c = '/' then some 63
  else none

/-- `base64.b64decode` on an input of length divisible by 4 whose
characters all lie in the base64 alphabet: decode four characters to three
bytes, a final `xx==` group to one byte and a final `xxx=` group to two
(data after a padded group is discarded, padding anywhere else fails). -/
def b64DecodeQuads : Str → Option (List Nat)
  | [] => some []
  | c1 :: c2 :: c3 :: c4 :: rest =>
    match b64Val c1, b64Val c2 with
    | some v1, some v2 =>
      if c3 = '=' then
        if c4 = '=' then some [v1 * 4 + v2 / 16] else none
      else
        match b64Val c3 with
        | some v3 =>
          if c4 = '=' then some [v1 * 4 + v2 / 16, (v2 % 16) * 16 + v3 / 4]
          else
            match b64Val c4 with
            | some v4 =>
              (b64DecodeQuads rest).map
                (fun bs => (v1 * 4 + v2 / 16) :: ((v2 % 16) * 16 + v3 / 4)
                  :: ((v3 % 4) * 64 + v4) :: bs)
            | none => none
        | none => none
    | _, _ => none
  | _ => none

/-- `bytes.decode("utf-8")`: strict UTF-8 decoding of a byte list,
rejecting overlong encodings, surrogates and out-of-range code points. -/
def utf8Decode : List Nat → Option Str
  | [] => some []
  | b :: bs =>
    if b < 128 then (utf8Decode bs).map (fun s => Char.ofNat b :: s)
    else if 192 ≤ b ∧ b < 224 then
      match bs with
      | b2 :: bs2 =>
        if 128 ≤ b2 ∧ b2 < 192 then
          let code := (b - 192) * 64 + (b2 - 128)
          if 128 ≤ code then (utf8Decode bs2).map (fun s => Char.ofNat code :: s) else none
        else none
      | [] => none
    else if 224 ≤ b ∧ b < 240 then
      match bs with
      | b2 :: b3 :: bs3 =>
        if (128 ≤ b2 ∧ b2 < 192) ∧ (128 ≤ b3 ∧ b3 < 192) then
          let code := (b - 224) * 4096 + (b2 - 128) * 64 + (b3 - 128)
          if 2048 ≤ code ∧ ¬(55296 ≤ code ∧ code ≤ 57343) then
            (utf8Decode bs3).map (fun s => Char.ofNat code :: s)
          else none
        else none
      | _ => none
    else if 240 ≤ b ∧ b < 248 then
      match bs with
      | b2 :: b3 :: b4 :: bs4 =>
        if (128 ≤ b2 ∧ b2 < 192) ∧ (128 ≤ b3 ∧ b3 < 192) ∧ (128 ≤ b4 ∧ b4 < 192) then
          let code := (b - 240) * 262144 + (b2 - 128) * 4096 + (b3 - 128) * 64 + (b4 - 128)
          if 65536 ≤ code ∧ code ≤ 1114111 then
            (utf8Decode bs4).map (fun s => Char.ofNat code :: s)
          else none
        else none
      | _ => none
    else none

/-- The characters accepted by the base64 shape check of
`unescape_env_value` (cloud_storage_utils.py line 59). -/
def b64Alphabet : Str :=
  "ABCDEFGHIJKLMNOPQRSTUVWXYZabcdefghijklmnopqrstuvwxyz0123456789+/=".toList

/-- `unescape_env_value` (cloud_storage_utils.py lines 37-68): replace the
`_SLASH_` sentinel with `/`; when the result has the shape of base64
(length a multiple of 4, all characters in the alphabet) attempt a base64
decode followed by UTF-8 decoding, and fall back to the sentinel-replaced
string when either decoding step fails. -/
def unescape_env_value (encoded_value : Str) : Str :=
  if encoded_value = [] then []
  else
    let decoded_value := replaceSlash encoded_value
    if decoded_value.length % 4 = 0 ∧ decoded_value.all (fun c => b64Alphabet.contains c) then
      match (b64DecodeQuads decoded_value).bind utf8Decode with
      | some s => s
      | none => decoded_value
    else decoded_value

/-- The container-provisioning step of
`CloudStorageHandler._init_azure_handler` (cloud_storage_utils.py lines
348-358): try to read the container properties; on success use the
existing container with no creation call; on failure attempt exactly one
`create_container` call, and re-raise its exception when it fails.  The
first component counts creation calls; `Except.error` models an exception
propagating out of `_init_azure_handler`. -/
def CloudStorageHandler.provisionContainer (probeResult createResult : Except Str Unit) :
    Nat × Except Str Unit :=
  match probeResult with
  | Except.ok _ => (0, Except.ok ())
  | Except.error _ =>
    match createResult with
    | Except.ok _ => (1, Except.ok ())
    | Except.error e => (1, Except.error e)

/-- Python `s.lower()` for ASCII strings. -/
def lowerStr (s : Str) : Str := s.map Char.toLower

/-- The attributes assigned by `CloudStorageHandler.__init__` that matter
to its control flow; `none` models an attribute never assigned (reading it
raises `AttributeError`). -/
structure CSState where
  provider : Str
  bucket_name : Option Str
  test_mode : Option Bool
deriving DecidableEq

/-- How `CloudStorageHandler.__init__` can fail: reading the unassigned
`self.test_mode` attribute, or an exception re-raised from the
provider-handler initialization (lines 146-149). -/
inductive InitError where
  | attributeError
  | raised (msg : Str)
deriving DecidableEq

/-- `CloudStorageHandler.__init__` (cloud_storage_utils.py lines 80-149),
with the provider-specific handler initialization abstracted as
`handlerInit provider bucket`.  An optional string argument is the empty
list when absent.  Lines 92-97 resolve and validate the provider; lines
101-110 either store a test container name (azure with
`CLOUD_STORAGE_TEST_CONTAINER` set, leaving `self.test_mode` unassigned)
or assign `self.test_mode`; lines 118-123 default the bucket name to
`emprops-share` and then read `self.test_mode`, which raises
`AttributeError` when it was never assigned; an error result carries the
attribute state at the point of the raise. -/
def CloudStorageHandler.init (env : Env) (provider_arg bucket_arg : Str)
    (handlerInit : Str → Str → Except Str Unit) : Except (InitError × CSState) CSState :=
  let provider := pyOr provider_arg (lowerStr (getD env kPROVIDER "aws".toList))
  let provider :=
    if provider = "aws".toList ∨ provider = "google".toList ∨ provider = "azure".toList then
      provider
    else "aws".toList
  let test_container := getS env kTESTCONTAINER
  let st : CSState :=
    if test_container ≠ [] ∧ provider = "azure".toList then
      { provider := provider, bucket_name := some test_container, test_mode := none }
    else if lowerStr (getD env kTESTMODE "false".toList) = "true".toList then
      { provider := provider, bucket_name := none, test_mode := some true }
    else
      { provider := provider, bucket_name := none, test_mode := some false }
  if bucket_arg ≠ [] then
    let st := { st with bucket_name := some bucket_arg }
    match handlerInit provider bucket_arg with
    | Except.ok _ => Except.ok st
    | Except.error e => Except.error (InitError.raised e, st)
  else
    let st := { st with bucket_name := some "emprops-share".toList }
    match st.test_mode with
    | none => Except.error (InitError.attributeError, st)
    | some tm =>
      let st :=
        if tm then { st with bucket_name := some ((st.bucket_name.getD []) ++ "-test".toList) }
        else st
      match handlerInit provider (st.bucket_name.getD []) with
      | Except.ok _ => Except.ok st
      | Except.error e => Except.error (InitError.raised e, st)

example : CloudStorageHandler.init (envOfList [(kTESTCONTAINER, "my-test".toList)])
    "azure".toList [] (fun _ _ => Except.ok ())
    = Except.error (InitError.attributeError,
        { provider := "azure".toList, bucket_name := some "emprops-share".toList,
          test_mode := none }) := rfl
example : CloudStorageHandler.init (envOfList []) "azure".toList []
    (fun _ _ => Except.ok ())
    = Except.ok
        { provider := "azure".toList, bucket_name := some "emprops-share".toList,
          test_mode := some false } := rfl
example : CloudStorageHandler.init (envOfList [(kTESTMODE, "True".toList)]) [] []
    (fun _ _ => Except.ok ())
    = Except.ok
        { provider := "aws".toList, bucket_name := some "emprops-share-test".toList,
          test_mode := some true } := rfl

example : S3Handler.verify_s3_upload (fun i => decide (2 ≤ i)) 5 = (3, Except.ok true) := rfl
example : S3Handler.verify_s3_upload (fun _ => false) 5 = (5, Except.error ()) := rfl
example : CloudStorageHandler.verify_upload (fun _ => false) 5 = (5, false) := by decide
example : CloudStorageHandler.verify_upload (fun i => decide (2 ≤ i)) 5 = (3, true) := by decide

example : S3Handler.buildKey "renders/2024".toList "clip.mp4".toList
    = "renders/2024/clip.mp4".toList := by decide
example : CloudStorageHandler.buildKey "renders/2024".toList "clip.mp4".toList
    = "renders/2024/clip.mp4".toList := by decide
example : hasDoubleSlash (S3Handler.buildKey "a//b".toList "f.mp4".toList) = true := by decide
example : hasDoubleSlash (CloudStorageHandler.buildKey "a//b".toList "f.mp4".toList) = true := by decide
example : (CloudStorageHandler.buildKey "/a".toList "f.mp4".toList).head? = some '/' := by decide
example : S3Handler.uploadFilename "a.mp4".toList "x.mp4".toList (some 2) = "x.mp4".toList := by decide
example : CloudStorageHandler.uploadFilename "a.mp4".toList "x.mp4".toList (some 2)
    = "x_2.mp4".toList := by decide
example : splitext "clip.mp4".toList = ("clip".toList, ".mp4".toList) := by decide
example : splitext ".bashrc".toList = (".bashrc".toList, [])  := by decide
example : splitext "a.b.c".toList = ("a.b".toList, ".c".toList) := by decide
example : basename "out/clip.mp4".toList = "clip.mp4".toList := by decide

example : unescape_env_value "dGVzdA==".toList = "test".toList := by decide
example : process_secret_key "dGVzdA==".toList = "dGVzdA==".toList := by decide
example : process_secret_key "AB_SLASH_CD".toList = "AB/CD".toList := by decide
example : unescape_env_value "notb64!".toList = "notb64!".toList := by decide
example : (resolveAws (envOfList [(kACCESS, "AK".toList), (kSECRET, "SK".toList)])
    (envOfList [(kREGION, "eu-west-1".toList)]) (envOfList []) true false)
    = ("AK".toList, "SK".toList, "eu-west-1".toList) := by decide
example : (resolveAws (envOfList [])
    (envOfList [(kSECRET, "plainval".toList), (kENCODED, "encval!".toList),
      (kACCESS, "ak".toList)]) (envOfList []) true false).2.1 = "encval!".toList := by decide

/-! Helper lemmas about the path-string operations. -/

theorem hasDoubleSlash_cons_cons (a b : Char) (t : Str) :
    hasDoubleSlash (a :: b :: t) = ((a = '/' && b = '/') || hasDoubleSlash (b :: t)) := rfl

theorem hasDoubleSlash_of_not_mem {l : Str} (h : '/' ∉ l) : hasDoubleSlash l = false := by
  induction l with
  | nil => rfl
  | cons a t ih =>
    cases t with
    | nil => rfl
    | cons b t' =>
      have ha : a ≠ '/' := fun he => h (he ▸ List.mem_cons_self a _)
      have ht : '/' ∉ b :: t' := fun hm => h (List.mem_cons_of_mem _ hm)
      rw [hasDoubleSlash_cons_cons, ih ht]
      simp [fun he : a = '/' => ha he]

theorem hasDoubleSlash_append_left {xs ys : Str} (h : hasDoubleSlash (xs ++ ys) = false) :
    hasDoubleSlash xs = false := by
  induction xs with
  | nil => rfl
  | cons a t ih =>
    cases t with
    | nil => rfl
    | cons b t' =>
      rw [List.cons_append, List.cons_append, hasDoubleSlash_cons_cons] at h
      rw [hasDoubleSlash_cons_cons]
      simp only [Bool.or_eq_false_iff] at h ⊢
      exact ⟨h.1, ih (by rw [List.cons_append]; exact h.2)⟩

theorem hasDoubleSlash_append {xs ys : Str} (hx : hasDoubleSlash xs = false)
    (hy : hasDoubleSlash ys = false)
    (hb : xs.getLast? ≠ some '/' ∨ ys.head? ≠ some '/') :
    hasDoubleSlash (xs ++ ys) = false := by
  induction xs with
  | nil => simpa using hy
  | cons a t ih =>
    cases t with
    | nil =>
      cases ys with
      | nil => rfl
      | cons b u =>
        rw [List.singleton_append, hasDoubleSlash_cons_cons, hy]
        simp only [Bool.or_false, Bool.and_eq_false_iff]
        rcases hb with hb | hb
        · left; simpa using fun he : a = '/' => hb (by simp [he])
        · right; simpa using fun he : b = '/' => hb (by simp [he])
    | cons b t' =>
      rw [List.cons_append, List.cons_append, hasDoubleSlash_cons_cons]
      rw [hasDoubleSlash_cons_cons] at hx
      simp only [Bool.or_eq_false_iff] at hx ⊢
      refine ⟨hx.1, ?_⟩
      rw [← List.cons_append]
      refine ih hx.2 ?_
      rcases hb with hb | hb
      · left; rw [List.getLast?_cons_cons] at hb; exact hb
      · right; exact hb

theorem head?_ne_slash_of_not_mem {g : Str} (hg : '/' ∉ g) : g.head? ≠ some '/' := by
  cases g with
  | nil => simp
  | cons a t =>
    simp only [List.head?_cons, ne_eq, Option.some.injEq]
    intro he
    exact hg (he ▸ List.mem_cons_self a t)

theorem dropWhileSuffix (p : Char → Bool) (l : Str) : l.dropWhile p <:+ l := by
  induction l with
  | nil => exact List.suffix_rfl
  | cons a t ih =>
    rw [List.dropWhile_cons]
    split
    · exact ih.trans (List.suffix_cons a t)
    · exact List.suffix_rfl

theorem head?_dropWhile_ne (p : Char → Bool) (l : Str) {c : Char}
    (h : (l.dropWhile p).head? = some c) : p c = false := by
  induction l with
  | nil => simp at h
  | cons a t ih =>
    rw [List.dropWhile_cons] at h
    split at h
    · exact ih h
    · next hpa =>
      simp only [List.head?_cons, Option.some.injEq] at h
      subst h
      simpa using hpa

theorem rstripSlash_prefix (s : Str) : rstripSlash s <+: s := by
  unfold rstripSlash
  obtain ⟨t, ht⟩ := dropWhileSuffix (fun c => c = '/') s.reverse
  exact ⟨t.reverse, by rw [← List.reverse_append, ht, List.reverse_reverse]⟩

theorem rstripSlash_getLast? (s : Str) : (rstripSlash s).getLast? ≠ some '/' := by
  unfold rstripSlash
  rw [List.getLast?_reverse]
  intro h
  have := head?_dropWhile_ne (fun c => c = '/') s.reverse h
  simp at this

theorem head?_of_prefix {r s : Str} (h : r <+: s) (hr : r ≠ []) : s.head? = r.head? := by
  obtain ⟨t, rfl⟩ := h
  cases r with
  | nil => exact absurd rfl hr
  | cons a u => simp

theorem basename_no_slash (p : Str) : '/' ∉ basename p := by
  unfold basename
  intro h
  rw [List.mem_reverse] at h
  have := List.mem_takeWhile_imp h
  simp at this

theorem splitext_append (p : Str) : (splitext p).1 ++ (splitext p).2 = p := by
  simp only [splitext]
  split
  · split
    · simp [List.take_append_drop]
    · simp
  · simp

theorem digitChar_ne_slash_lt : ∀ m, m < 17 → Nat.digitChar m ≠ '/' := by decide

theorem digitChar_ne_slash (m : Nat) : Nat.digitChar m ≠ '/' := by
  by_cases h : m < 17
  · exact digitChar_ne_slash_lt m h
  · unfold Nat.digitChar
    have h0 : ¬ m = 0 := by omega
    have h1 : ¬ m = 1 := by omega
    have h2 : ¬ m = 2 := by omega
    have h3 : ¬ m = 3 := by omega
    have h4 : ¬ m = 4 := by omega
    have h5 : ¬ m = 5 := by omega
    have h6 : ¬ m = 6 := by omega
    have h7 : ¬ m = 7 := by omega
    have h8 : ¬ m = 8 := by omega
    have h9 : ¬ m = 9 := by omega
    have ha : ¬ m = 10 := by omega
    have hb : ¬ m = 11 := by omega
    have hc : ¬ m = 12 := by omega
    have hd : ¬ m = 13 := by omega
    have he : ¬ m = 14 := by omega
    have hf : ¬ m = 15 := by omega
    simp only [h0, h1, h2, h3, h4, h5, h6, h7, h8, h9, ha, hb, hc, hd, he, hf, if_false]
    decide

theorem toDigitsCore_no_slash (f : Nat) : ∀ (n : Nat) (acc : List Char),
    '/' ∉ acc → '/' ∉ Nat.toDigitsCore 10 f n acc := by
  induction f with
  | zero => intro n acc hacc; simpa [Nat.toDigitsCore] using hacc
  | succ f ih =>
    intro n acc hacc
    rw [Nat.toDigitsCore]
    split
    · intro h
      rcases List.mem_cons.mp h with h | h
      · exact digitChar_ne_slash _ h.symm
      · exact hacc h
    · refine ih _ _ ?_
      intro h
      rcases List.mem_cons.mp h with h | h
      · exact digitChar_ne_slash _ h.symm
      · exact hacc h

theorem natRepr_no_slash (n : Nat) : '/' ∉ (Nat.repr n).toList :=
  toDigitsCore_no_slash (n + 1) n [] (by simp)

theorem intStr_no_slash (i : Int) : '/' ∉ intStr i := by
  unfold intStr
  cases i with
  | ofNat m => exact natRepr_no_slash m
  | negSucc m =>
    show '/' ∉ (("-" ++ Nat.repr (m + 1) : String)).toList
    have : (("-" ++ Nat.repr (m + 1) : String)).toList
        = ("-" : String).toList ++ (Nat.repr (m + 1)).toList := String.data_append _ _
    rw [this]
    intro h
    rcases List.mem_append.mp h with h | h
    · simp at h
    · exact natRepr_no_slash (m + 1) h

theorem insertIndex_no_slash {fn : Str} (i : Int) (h : '/' ∉ fn) :
    '/' ∉ (splitext fn).1 ++ '_' :: (intStr i ++ (splitext fn).2) := by
  intro hm
  have hparts := splitext_append fn
  rcases List.mem_append.mp hm with hm | hm
  · exact h (hparts ▸ List.mem_append_left _ hm)
  · rcases List.mem_cons.mp hm with hm | hm
    · exact absurd hm (by decide)
    · rcases List.mem_append.mp hm with hm | hm
      · exact intStr_no_slash i hm
      · exact h (hparts ▸ List.mem_append_right _ hm)

theorem s3_uploadFilename_no_slash (fp tn : Str) (index : Option Int) (h : '/' ∉ tn) :
    '/' ∉ S3Handler.uploadFilename fp tn index := by
  by_cases htn : tn = []
  · subst htn
    cases index with
    | none => simpa [S3Handler.uploadFilename] using basename_no_slash fp
    | some i =>
      simpa [S3Handler.uploadFilename] using insertIndex_no_slash i (basename_no_slash fp)
  · cases index with
    | none => simpa [S3Handler.uploadFilename, htn] using h
    | some i => simpa [S3Handler.uploadFilename, htn] using h

theorem cloud_uploadFilename_no_slash (fp tn : Str) (index : Option Int) (h : '/' ∉ tn) :
    '/' ∉ CloudStorageHandler.uploadFilename fp tn index := by
  by_cases htn : tn = []
  · subst htn
    cases index with
    | none => simpa [CloudStorageHandler.uploadFilename] using basename_no_slash fp
    | some i =>
      simpa [CloudStorageHandler.uploadFilename] using
        insertIndex_no_slash i (basename_no_slash fp)
  · cases index with
    | none => simpa [CloudStorageHandler.uploadFilename, htn] using h
    | some i =>
      simpa [CloudStorageHandler.uploadFilename, htn] using insertIndex_no_slash i h

theorem head?_append_left {xs ys : Str} (h : xs ≠ []) : (xs ++ ys).head? = xs.head? := by
  cases xs with
  | nil => exact absurd rfl h
  | cons a t => simp

theorem s3_buildKey_clean {pfx g : Str} (h1 : hasDoubleSlash pfx = false)
    (h2 : pfx.head? ≠ some '/') (hg : '/' ∉ g) :
    hasDoubleSlash (S3Handler.buildKey pfx g) = false ∧
      (S3Handler.buildKey pfx g).head? ≠ some '/' := by
  have hgd : hasDoubleSlash g = false := hasDoubleSlash_of_not_mem hg
  have hgh : g.head? ≠ some '/' := head?_ne_slash_of_not_mem hg
  by_cases hp : pfx = []
  · subst hp
    have hkey : S3Handler.buildKey [] g = g := by simp [S3Handler.buildKey]
    rw [hkey]
    exact ⟨hgd, hgh⟩
  · have hpref := rstripSlash_prefix pfx
    have hlast := rstripSlash_getLast? pfx
    have hr : hasDoubleSlash (rstripSlash pfx) = false := by
      obtain ⟨t, ht⟩ := hpref
      exact hasDoubleSlash_append_left (by rw [ht]; exact h1)
    cases hrs : rstripSlash pfx with
    | nil =>
      have hkey : S3Handler.buildKey pfx g = g := by
        simp [S3Handler.buildKey, hp, hrs]
      rw [hkey]
      exact ⟨hgd, hgh⟩
    | cons c r' =>
      have hc : c ≠ '/' := by
        have hh := head?_of_prefix hpref (by rw [hrs]; simp)
        rw [hrs] at hh
        intro he
        exact h2 (by rw [hh, he]; simp)
      have hq : hasDoubleSlash ((c :: r') ++ ['/']) = false := by
        refine hasDoubleSlash_append (by rw [← hrs]; exact hr) (by rfl) ?_
        left
        rw [← hrs]
        exact hlast
      have hkey : S3Handler.buildKey pfx g = ((c :: r') ++ ['/']) ++ g := by
        simp [S3Handler.buildKey, hp, hrs, hc]
      rw [hkey]
      constructor
      · exact hasDoubleSlash_append hq hgd (Or.inr hgh)
      · rw [head?_append_left (by simp)]
        simp [hc]

theorem cloud_buildKey_clean {pfx g : Str} (h1 : hasDoubleSlash pfx = false)
    (h2 : pfx.head? ≠ some '/') (hg : '/' ∉ g) :
    hasDoubleSlash (CloudStorageHandler.buildKey pfx g) = false ∧
      (CloudStorageHandler.buildKey pfx g).head? ≠ some '/' := by
  have hgd : hasDoubleSlash g = false := hasDoubleSlash_of_not_mem hg
  have hgh : g.head? ≠ some '/' := head?_ne_slash_of_not_mem hg
  by_cases hp : pfx = []
  · subst hp
    have hkey : CloudStorageHandler.buildKey [] g = g := by
      simp [CloudStorageHandler.buildKey]
    rw [hkey]
    exact ⟨hgd, hgh⟩
  · by_cases hl : pfx.getLast? = some '/'
    · have hkey : CloudStorageHandler.buildKey pfx g = pfx ++ g := by
        simp [CloudStorageHandler.buildKey, hp, hl]
      rw [hkey]
      refine ⟨hasDoubleSlash_append h1 hgd (Or.inr hgh), ?_⟩
      rw [head?_append_left hp]
      exact h2
    · have hkey : CloudStorageHandler.buildKey pfx g = (pfx ++ ['/']) ++ g := by
        simp [CloudStorageHandler.buildKey, hp, hl]
      rw [hkey]
      have hq : hasDoubleSlash (pfx ++ ['/']) = false :=
        hasDoubleSlash_append h1 (by rfl) (Or.inl hl)
      refine ⟨hasDoubleSlash_append hq hgd (Or.inr hgh), ?_⟩
      rw [head?_append_left (by simp [hp]), head?_append_left hp]
      exact h2

/-! Claim theorems. -/

/-- C1 counterexample: the object key CAN contain a double slash or a
leading slash.  A prefix with an interior `//` survives both key builders
(s3_utils.py only strips trailing slashes, cloud_storage_utils.py only
appends one); a prefix starting with `/` gives the cloud key a leading
slash; and a target name containing `//` flows into the s3 key unchanged. -/
theorem buildKey_double_slash_cex :
    hasDoubleSlash (S3Handler.buildKey "a//b".toList
      (S3Handler.uploadFilename "f.mp4".toList [] none)) = true ∧
    hasDoubleSlash (CloudStorageHandler.buildKey "a//b".toList
      (CloudStorageHandler.uploadFilename "f.mp4".toList [] none)) = true ∧
    (CloudStorageHandler.buildKey "/a".toList
      (CloudStorageHandler.uploadFilename "f.mp4".toList [] none)).head? = some '/' ∧
    hasDoubleSlash (S3Handler.buildKey "p".toList
      (S3Handler.uploadFilename "x".toList "a//b.mp4".toList none)) = true := by
  refine ⟨by decide, by decide, by decide, by decide⟩

/-- C1 (amended): for every file path, optional index, prefix containing
no `//` and not starting with `/`, and target name containing no `/`, the
object key built by either `upload_file` variant contains no double slash
and does not start with a slash. -/
theorem upload_key_no_double_slash (fp tn pfx : Str) (index : Option Int)
    (h1 : hasDoubleSlash pfx = false) (h2 : pfx.head? ≠ some '/') (h3 : '/' ∉ tn) :
    (hasDoubleSlash (S3Handler.buildKey pfx (S3Handler.uploadFilename fp tn index)) = false ∧
      (S3Handler.buildKey pfx (S3Handler.uploadFilename fp tn index)).head? ≠ some '/') ∧
    hasDoubleSlash (CloudStorageHandler.buildKey pfx
        (CloudStorageHandler.uploadFilename fp tn index)) = false ∧
      (CloudStorageHandler.buildKey pfx
        (CloudStorageHandler.uploadFilename fp tn index)).head? ≠ some '/' :=
  ⟨s3_buildKey_clean h1 h2 (s3_uploadFilename_no_slash fp tn index h3),
   cloud_buildKey_clean h1 h2 (cloud_uploadFilename_no_slash fp tn index h3)⟩

/-- Witness for C1 at a concrete input. -/
theorem upload_key_no_double_slash_witness :
    (hasDoubleSlash (S3Handler.buildKey "renders/2024".toList
        (S3Handler.uploadFilename "out/clip.mp4".toList [] (some 3))) = false ∧
      (S3Handler.buildKey "renders/2024".toList
        (S3Handler.uploadFilename "out/clip.mp4".toList [] (some 3))).head? ≠ some '/') ∧
    hasDoubleSlash (CloudStorageHandler.buildKey "renders/2024".toList
        (CloudStorageHandler.uploadFilename "out/clip.mp4".toList [] (some 3))) = false ∧
      (CloudStorageHandler.buildKey "renders/2024".toList
        (CloudStorageHandler.uploadFilename "out/clip.mp4".toList [] (some 3))).head?
        ≠ some '/' :=
  upload_key_no_double_slash "out/clip.mp4".toList [] "renders/2024".toList (some 3)
    (by decide) (by decide) (by decide)

theorem s3_verifyAux_finds (probe : Nat → Bool) :
    ∀ (r a j : Nat), j < r → (∀ i, i < j → probe (a + i) = false) → probe (a + j) = true →
    S3Handler.verifyAux probe a r = (j + 1, Except.ok true) := by
  intro r
  induction r with
  | zero => intro a j hj _ _; exact absurd hj (Nat.not_lt_zero j)
  | succ r ih =>
    intro a j hj hf ht
    cases j with
    | zero =>
      have hpa : probe a = true := by simpa using ht
      simp [S3Handler.verifyAux, hpa]
    | succ j' =>
      have hpa : probe a = false := by simpa using hf 0 (Nat.succ_pos j')
      have hr : r ≠ 0 := by omega
      have hstep := ih (a + 1) j' (by omega)
        (fun i hi => by
          have h := hf (i + 1) (by omega)
          rwa [show a + (i + 1) = a + 1 + i by omega] at h)
        (by rwa [show a + (j' + 1) = a + 1 + j' by omega] at ht)
      simp [S3Handler.verifyAux, hpa, hr, hstep]

theorem cloud_verifyAux_finds (probe : Nat → Bool) :
    ∀ (r a j : Nat), j < r → (∀ i, i < j → probe (a + i) = false) → probe (a + j) = true →
    CloudStorageHandler.verifyAux probe a r = (j + 1, true) := by
  intro r
  induction r with
  | zero => intro a j hj _ _; exact absurd hj (Nat.not_lt_zero j)
  | succ r ih =>
    intro a j hj hf ht
    cases j with
    | zero =>
      have hpa : probe a = true := by simpa using ht
      simp [CloudStorageHandler.verifyAux, hpa]
    | succ j' =>
      have hpa : probe a = false := by simpa using hf 0 (Nat.succ_pos j')
      have hr : r ≠ 0 := by omega
      have hstep := ih (a + 1) j' (by omega)
        (fun i hi => by
          have h := hf (i + 1) (by omega)
          rwa [show a + (i + 1) = a + 1 + i by omega] at h)
        (by rwa [show a + (j' + 1) = a + 1 + j' by omega] at ht)
      simp [CloudStorageHandler.verifyAux, hpa, hr, hstep]

theorem s3_verifyAux_exhausts (probe : Nat → Bool) (hfalse : ∀ i, probe i = false) :
    ∀ (r a : Nat), 1 ≤ r → S3Handler.verifyAux probe a r = (r, Except.error ()) := by
  intro r
  induction r with
  | zero => intro a h; exact absurd h (by omega)
  | succ r ih =>
    intro a _
    rcases Nat.eq_zero_or_pos r with h0 | hpos
    · subst h0; simp [S3Handler.verifyAux, hfalse a]
    · have hr : r ≠ 0 := by omega
      simp [S3Handler.verifyAux, hfalse a, hr, ih (a + 1) hpos]

theorem cloud_verifyAux_exhausts (probe : Nat → Bool) (hfalse : ∀ i, probe i = false) :
    ∀ (r a : Nat), CloudStorageHandler.verifyAux probe a r = (r, false) := by
  intro r
  induction r with
  | zero => intro a; rfl
  | succ r ih =>
    intro a
    rcases Nat.eq_zero_or_pos r with h0 | hpos
    · subst h0; simp [CloudStorageHandler.verifyAux, hfalse a]
    · have hr : r ≠ 0 := by omega
      simp [CloudStorageHandler.verifyAux, hfalse a, hr, ih (a + 1)]

/-- C2 counterexample: with the default `max_attempts = 5` and a probe
that never succeeds, `S3Handler.verify_s3_upload` does NOT return false:
it re-raises the last probe exception after 5 probes (s3_utils.py line
90), modelled as `Except.error ()`. -/
theorem verify_s3_upload_raises_cex :
    S3Handler.verify_s3_upload (fun _ => false) 5 = (5, Except.error ()) := rfl

/-- C2 (amended): a probe failing exactly `k` times then succeeding, with
`k < max_attempts`, makes both verification loops return true after
exactly `k + 1` probes; a probe that never succeeds makes
`CloudStorageHandler.verify_upload` return false after exactly
`max_attempts` probes without raising, while `S3Handler.verify_s3_upload`
re-raises the last probe exception after exactly `max_attempts` probes. -/
theorem verification_loop_spec (probe probe2 : Nat → Bool) (k ma : Nat)
    (h1 : k < ma) (h2 : ∀ i, i < k → probe i = false) (h3 : probe k = true)
    (h4 : ∀ i, probe2 i = false) (h5 : 1 ≤ ma) :
    CloudStorageHandler.verify_upload probe ma = (k + 1, true) ∧
    S3Handler.verify_s3_upload probe ma = (k + 1, Except.ok true) ∧
    CloudStorageHandler.verify_upload probe2 ma = (ma, false) ∧
    S3Handler.verify_s3_upload probe2 ma = (ma, Except.error ()) := by
  refine ⟨?_, ?_, ?_, ?_⟩
  · exact cloud_verifyAux_finds probe ma 0 k h1
      (fun i hi => by simpa using h2 i hi) (by simpa using h3)
  · exact s3_verifyAux_finds probe ma 0 k h1
      (fun i hi => by simpa using h2 i hi) (by simpa using h3)
  · exact cloud_verifyAux_exhausts probe2 h4 ma 0
  · exact s3_verifyAux_exhausts probe2 h4 ma 0 h5

/-- Witness for C2: a probe failing twice then succeeding, and a probe
that never succeeds, both with the default 5 attempts. -/
theorem verification_loop_spec_witness :
    CloudStorageHandler.verify_upload (fun i => decide (2 ≤ i)) 5 = (3, true) ∧
    S3Handler.verify_s3_upload (fun i => decide (2 ≤ i)) 5 = (3, Except.ok true) ∧
    CloudStorageHandler.verify_upload (fun _ => false) 5 = (5, false) ∧
    S3Handler.verify_s3_upload (fun _ => false) 5 = (5, Except.error ()) :=
  verification_loop_spec (fun i => decide (2 ≤ i)) (fun _ => false) 2 5
    (by decide) (by decide) (by decide) (fun i => rfl) (by decide)

/-- C3 counterexample: `CloudStorageHandler.upload_file` DOES apply the
`_<index>` suffix to a supplied target name (cloud_storage_utils.py line
473 has no `not target_name` guard): target name `x.mp4` with index 2 is
stored as `x_2.mp4`, not `x.mp4`. -/
theorem cloud_target_name_indexed_cex :
    CloudStorageHandler.uploadFilename "a.mp4".toList "x.mp4".toList (some 2)
      = "x_2.mp4".toList ∧ "x_2.mp4".toList ≠ "x.mp4".toList := by
  refine ⟨by decide, by decide⟩

/-- C3 (amended): with a non-empty target name and an index,
`S3Handler.upload_file` stores the target name unchanged (the
`not target_name` guard on s3_utils.py line 115 suppresses the suffix),
while `CloudStorageHandler.upload_file` inserts the `_<index>` suffix into
the target name before its extension. -/
theorem upload_filename_target_name (fp tn : Str) (i : Int) (h : tn ≠ []) :
    S3Handler.uploadFilename fp tn (some i) = tn ∧
    CloudStorageHandler.uploadFilename fp tn (some i)
      = (splitext tn).1 ++ '_' :: (intStr i ++ (splitext tn).2) := by
  constructor
  · simp [S3Handler.uploadFilename, h]
  · simp [CloudStorageHandler.uploadFilename, h]

/-- Witness for C3 at a concrete input. -/
theorem upload_filename_target_name_witness :
    S3Handler.uploadFilename "a.mp4".toList "x.mp4".toList (some 2) = "x.mp4".toList ∧
    CloudStorageHandler.uploadFilename "a.mp4".toList "x.mp4".toList (some 2)
      = (splitext "x.mp4".toList).1 ++ '_' :: (intStr 2 ++ (splitext "x.mp4".toList).2) :=
  upload_filename_target_name "a.mp4".toList "x.mp4".toList 2 (by decide)

/-- C6: `upload_files` passes `index = None` to `upload_file` exactly when
the list has one element (more precisely, when it does not have more than
one), passes each element's position as the index when the list has more
than one element, and returns one result per input, in input order. -/
theorem upload_files_indexing (uf : Str → Option Int → Bool × Str) (file_paths : List Str) :
    (S3Handler.upload_files_list uf file_paths).length = file_paths.length ∧
    ∀ i : Nat, (S3Handler.upload_files_list uf file_paths)[i]?
      = file_paths[i]?.map
          (fun fp => uf fp (if file_paths.length > 1 then some (i : Int) else none)) := by
  constructor
  · simp [S3Handler.upload_files_list]
  · intro i
    simp only [S3Handler.upload_files_list, List.getElem?_map, List.getElem?_enum]
    cases file_paths[i]? <;> simp

/-- C7: at the specification example (prefix `renders/2024`, path
`out/clip.mp4`, no index, no target name, bucket `emprops-share`, local
file present, put and verification succeeding) both `upload_file`
variants build key `renders/2024/clip.mp4` and return success with URL
`https://emprops-share.s3.amazonaws.com/renders/2024/clip.mp4`. -/
theorem upload_file_example :
    S3Handler.buildKey "renders/2024".toList
        (S3Handler.uploadFilename "out/clip.mp4".toList [] none)
      = "renders/2024/clip.mp4".toList ∧
    S3Handler.upload_file (fun _ => true) (Except.ok ()) (Except.ok true)
        "emprops-share".toList "out/clip.mp4".toList "renders/2024".toList none []
      = (true, "https://emprops-share.s3.amazonaws.com/renders/2024/clip.mp4".toList) ∧
    CloudStorageHandler.upload_file_aws (fun _ => true) (Except.ok ()) true
        "emprops-share".toList "out/clip.mp4".toList "renders/2024".toList none []
      = (true, "https://emprops-share.s3.amazonaws.com/renders/2024/clip.mp4".toList) := by
  refine ⟨by decide, ?_, ?_⟩ <;> rfl

/-- C8: during Azure adapter construction, a successful
container-properties probe leads to zero creation calls and success; a
failed probe leads to exactly one creation call, whose outcome is the
outcome of the provisioning step, a creation failure propagating as an
exception out of `_init_azure_handler`. -/
theorem azure_container_provisioning (probeResult createResult : Except Str Unit) :
    ((∃ u, probeResult = Except.ok u) →
      CloudStorageHandler.provisionContainer probeResult createResult = (0, Except.ok ())) ∧
    ((∃ e, probeResult = Except.error e) →
      (CloudStorageHandler.provisionContainer probeResult createResult).1 = 1 ∧
      (CloudStorageHandler.provisionContainer probeResult createResult).2 = createResult) := by
  constructor
  · rintro ⟨u, rfl⟩
    rfl
  · rintro ⟨e, rfl⟩
    cases createResult <;> exact ⟨rfl, rfl⟩

/-- Witness for C8: existing container (no creation), and missing
container with failing creation (error propagates). -/
theorem azure_container_provisioning_witness :
    CloudStorageHandler.provisionContainer (Except.ok ()) (Except.error "boom".toList)
      = (0, Except.ok ()) ∧
    (CloudStorageHandler.provisionContainer (Except.error "404".toList)
        (Except.error "boom".toList)).1 = 1 ∧
    (CloudStorageHandler.provisionContainer (Except.error "404".toList)
        (Except.error "boom".toList)).2 = Except.error "boom".toList :=
  ⟨(azure_container_provisioning (Except.ok ()) (Except.error "boom".toList)).1 ⟨(), rfl⟩,
   (azure_container_provisioning (Except.error "404".toList)
      (Except.error "boom".toList)).2 ⟨"404".toList, rfl⟩⟩

/-- C9: `upload_files` on a non-list argument raises `ValueError` (with
the message naming the argument type) and never invokes the per-file
upload: the result is the same for every upload function. -/
theorem upload_files_nonlist (uf uf2 : Str → Option Int → Bool × Str) (v : PyVal)
    (h : v.isList = false) :
    S3Handler.upload_files uf v
      = Except.error ("Expected list of file paths, got ".toList ++ v.typeName) ∧
    S3Handler.upload_files uf v = S3Handler.upload_files uf2 v := by
  cases v with
  | list l => simp [PyVal.isList] at h
  | str s => exact ⟨rfl, rfl⟩
  | int i => exact ⟨rfl, rfl⟩
  | noneVal => exact ⟨rfl, rfl⟩

/-- Witness for C9: a single string path instead of a list. -/
theorem upload_files_nonlist_witness :
    S3Handler.upload_files (fun fp _ => (true, fp)) (PyVal.str "a.png".toList)
      = Except.error ("Expected list of file paths, got ".toList
          ++ (PyVal.str "a.png".toList).typeName) ∧
    S3Handler.upload_files (fun fp _ => (true, fp)) (PyVal.str "a.png".toList)
      = S3Handler.upload_files (fun _ _ => ((false, []) : Bool × Str)) (PyVal.str "a.png".toList) :=
  upload_files_nonlist (fun fp _ => (true, fp)) (fun _ _ => ((false, []) : Bool × Str))
    (PyVal.str "a.png".toList) rfl

/-- C10: constructing a `CloudStorageHandler` for provider `azure` with
`CLOUD_STORAGE_TEST_CONTAINER` set to a non-empty value and no explicit
bucket name raises `AttributeError` (`self.test_mode` is read at line 122
without ever having been assigned), and at the moment of the crash
`self.bucket_name` has already been overwritten from the test container
name to the default `emprops-share`, so the advertised test container is
never used. -/
theorem cloud_init_test_container_crash (env : Env) (tc : Str)
    (handlerInit : Str → Str → Except Str Unit)
    (h1 : env kTESTCONTAINER = some tc) (h2 : tc ≠ []) :
    CloudStorageHandler.init env "azure".toList [] handlerInit
      = Except.error (InitError.attributeError,
          { provider := "azure".toList, bucket_name := some "emprops-share".toList,
            test_mode := none }) := by
  simp [CloudStorageHandler.init, pyOr, getS, h1, h2]

/-- Witness for C10 at a concrete environment. -/
theorem cloud_init_test_container_crash_witness :
    CloudStorageHandler.init (envOfList [(kTESTCONTAINER, "my-test".toList)])
      "azure".toList [] (fun _ _ => Except.ok ())
      = Except.error (InitError.attributeError,
          { provider := "azure".toList, bucket_name := some "emprops-share".toList,
            test_mode := none }) :=
  cloud_init_test_container_crash (envOfList [(kTESTCONTAINER, "my-test".toList)])
    "my-test".toList (fun _ _ => Except.ok ()) rfl (by decide)

theorem replaceSlash_ne_nil {s : Str} (h : s ≠ []) : replaceSlash s ≠ [] := by
  cases s with
  | nil => exact absurd rfl h
  | cons c cs =>
    show replaceSlashFuel (c :: cs).length (c :: cs) ≠ []
    rw [List.length_cons]
    simp only [replaceSlashFuel]
    split <;> simp

theorem awsFileStage_ak {a s r : Str} (e : Env) (h : a ≠ []) :
    (awsFileStage a s r e).1 = a := by
  simp [awsFileStage, pyOr, h]

theorem awsFileStage_sk {a s r : Str} (e : Env) (h : s ≠ []) :
    (awsFileStage a s r e).2.1 = s := by
  simp [awsFileStage, pyOr, h]

theorem awsFileStage_rg {a s r : Str} (e : Env) (h : r ≠ []) :
    (awsFileStage a s r e).2.2 = r := by
  simp [awsFileStage, pyOr, h]

theorem resolveAws_preserves (env0 fenv lenv : Env) (fx lx : Bool) :
    ((awsStage1 env0).1 ≠ [] → (resolveAws env0 fenv lenv fx lx).1 = (awsStage1 env0).1) ∧
    ((awsStage1 env0).2.1 ≠ [] →
      (resolveAws env0 fenv lenv fx lx).2.1 = (awsStage1 env0).2.1) ∧
    ((awsStage1 env0).2.2 ≠ [] →
      (resolveAws env0 fenv lenv fx lx).2.2 = (awsStage1 env0).2.2) := by
  simp only [resolveAws]
  generalize awsStage1 env0 = t
  obtain ⟨a, sk, rg⟩ := t
  refine ⟨?_, ?_, ?_⟩ <;> intro h <;> cases fx <;> cases lx <;>
    split_ifs <;> simp_all [awsFileStage, pyOr]

/-- C4 counterexample: at the override-file stage the ENCODED variant wins
over the plain one.  With an empty process environment and a `.env` file
carrying both `AWS_SECRET_ACCESS_KEY=plainval` and
`AWS_SECRET_ACCESS_KEY_ENCODED=encval!`, the resolved secret is the
processed encoded value, not the plain one (s3_utils.py lines 33-35 try
the encoded variable first). -/
theorem aws_file_stage_encoded_wins_cex :
    (resolveAws (envOfList [])
        (envOfList [(kSECRET, "plainval".toList), (kENCODED, "encval!".toList),
          (kACCESS, "ak".toList)])
        (envOfList []) true false).2.1 = "encval!".toList ∧
    "encval!".toList ≠ "plainval".toList := by
  refine ⟨by decide, by decide⟩

/-- C4 (amended): a non-empty value in the process environment wins over
the override files for every credential field, and in the
process-environment stage the encoded secret variant is used only when
the plain one is absent or empty; but in the override-file stages the
encoded variant is consulted BEFORE the plain one, so a file-supplied
encoded value beats a file-supplied plain value. -/
theorem aws_credential_precedence (env0 fenv lenv : Env) (fx lx : Bool) :
    (getS env0 kACCESS ≠ [] →
      (resolveAws env0 fenv lenv fx lx).1 = getS env0 kACCESS) ∧
    (getS env0 kSECRET ≠ [] →
      (resolveAws env0 fenv lenv fx lx).2.1 = getS env0 kSECRET) ∧
    (getS env0 kREGION ≠ [] →
      (resolveAws env0 fenv lenv fx lx).2.2 = getS env0 kREGION) ∧
    (getS env0 kSECRET = [] → getS env0 kENCODED = [] → fx = true →
      process_secret_key (getS (mergeEnv env0 fenv) kENCODED) ≠ [] →
      (resolveAws env0 fenv lenv fx lx).2.1
        = process_secret_key (getS (mergeEnv env0 fenv) kENCODED)) := by
  refine ⟨?_, ?_, ?_, ?_⟩
  · intro h
    exact (resolveAws_preserves env0 fenv lenv fx lx).1 h
  · intro h
    have hst : (awsStage1 env0).2.1 = getS env0 kSECRET := by simp [awsStage1, h]
    rw [(resolveAws_preserves env0 fenv lenv fx lx).2.1 (by rw [hst]; exact h), hst]
  · intro h
    exact (resolveAws_preserves env0 fenv lenv fx lx).2.2 h
  · intro hs he hfx hw
    subst hfx
    have h01 : (awsStage1 env0).2.1 = [] := by
      simp [awsStage1, hs, he, process_secret_key]
    simp only [resolveAws]
    rw [if_pos (Or.inr (Or.inl h01))]
    simp only [if_true]
    have ht1 : (awsFileStage (awsStage1 env0).1 (awsStage1 env0).2.1 (awsStage1 env0).2.2
        (mergeEnv env0 fenv)).2.1 = process_secret_key (getS (mergeEnv env0 fenv) kENCODED) := by
      simp [awsFileStage, h01, pyOr, hw]
    cases lx <;> split_ifs <;> simp_all [awsFileStage, pyOr]

/-- Witness for C4: the plain secret from the process environment wins
over a file carrying a different value, and with an empty environment the
file-stage encoded value is the one resolved. -/
theorem aws_credential_precedence_witness :
    (resolveAws (envOfList [(kSECRET, "SK".toList), (kACCESS, "AK".toList)])
        (envOfList [(kSECRET, "other".toList)]) (envOfList []) true false).2.1
      = getS (envOfList [(kSECRET, "SK".toList), (kACCESS, "AK".toList)]) kSECRET ∧
    (resolveAws (envOfList [])
        (envOfList [(kSECRET, "plainval".toList), (kENCODED, "encval!".toList)])
        (envOfList []) true false).2.1
      = process_secret_key (getS (mergeEnv (envOfList [])
          (envOfList [(kSECRET, "plainval".toList), (kENCODED, "encval!".toList)]))
          kENCODED) :=
  ⟨(aws_credential_precedence (envOfList [(kSECRET, "SK".toList), (kACCESS, "AK".toList)])
      (envOfList [(kSECRET, "other".toList)]) (envOfList []) true false).2.1 (by decide),
   (aws_credential_precedence (envOfList [])
      (envOfList [(kSECRET, "plainval".toList), (kENCODED, "encval!".toList)])
      (envOfList []) true false).2.2.2 (by decide) (by decide) rfl (by decide)⟩

/-- C5 counterexample: an encoded secret with the exact shape of base64 is
NOT base64-decoded on the AWS credential path: the resolved secret is the
raw variable value (only `_SLASH_` replacement is applied by
`_process_secret_key`), even though `unescape_env_value` would decode it
to `test`. -/
theorem aws_secret_no_base64_cex :
    (resolveAws (envOfList [(kENCODED, "dGVzdA==".toList), (kACCESS, "AK".toList),
        (kREGION, "r".toList)]) (envOfList []) (envOfList []) false false).2.1
      = "dGVzdA==".toList ∧
    unescape_env_value "dGVzdA==".toList = "test".toList ∧
    "dGVzdA==".toList ≠ "test".toList := by
  refine ⟨by decide, by decide, by decide⟩

/-- C5 (amended): the secret resolved from the encoded environment
variable is exactly the `_SLASH_`-to-`/` replacement of its value; no
base64 decoding is attempted on the AWS credential path
(`_process_secret_key` is used there, not `unescape_env_value`). -/
theorem aws_encoded_secret_sentinel_only (env0 fenv lenv : Env) (fx lx : Bool) (v : Str)
    (h1 : getS env0 kSECRET = []) (h2 : getS env0 kENCODED = v) (h3 : v ≠ []) :
    (resolveAws env0 fenv lenv fx lx).2.1 = replaceSlash v := by
  have hst : (awsStage1 env0).2.1 = replaceSlash v := by
    simp [awsStage1, h1, h2, process_secret_key, h3]
  have hne : (awsStage1 env0).2.1 ≠ [] := by
    rw [hst]; exact replaceSlash_ne_nil h3
  rw [(resolveAws_preserves env0 fenv lenv fx lx).2.1 hne, hst]

/-- Witness for C5 at a concrete environment. -/
theorem aws_encoded_secret_sentinel_only_witness :
    (resolveAws (envOfList [(kENCODED, "AB_SLASH_CD".toList), (kACCESS, "AK".toList)])
      (envOfList []) (envOfList []) true true).2.1 = replaceSlash "AB_SLASH_CD".toList :=
  aws_encoded_secret_sentinel_only
    (envOfList [(kENCODED, "AB_SLASH_CD".toList), (kACCESS, "AK".toList)])
    (envOfList []) (envOfList []) true true "AB_SLASH_CD".toList
    (by decide) (by decide) (by decide)
